import Mathlib

/-!
Shallow embedding of the ChatCatcher trigger-response bot (src/bot.js).

Strings are modelled as `List Char`; the MongoDB collection of trigger
records is modelled as a `List TriggerRecord` in insertion order, with
`findOne` / `insertOne` / `deleteOne` / `updateOne` given their first-match
semantics.  Timestamps (`new Date()`) are passed in explicitly as a `Nat`.
The stateful command handlers return the new store together with an
`Except` value standing for the thrown-or-returned result.
-/

namespace ChatCatcher

/-- View a Lean string literal as the character-list representation used
throughout the development. -/
def strL (s : String) : List Char := s.data

/-- Left smart single quote U+2018, first source of `normalizeText`. -/
def smartSingleL : Char := Char.ofNat 0x2018

/-- Right smart single quote U+2019. -/
def smartSingleR : Char := Char.ofNat 0x2019

/-- Left smart double quote U+201C. -/
def smartDoubleL : Char := Char.ofNat 0x201C

/-- Right smart double quote U+201D. -/
def smartDoubleR : Char := Char.ofNat 0x201D

/-- En dash U+2013. -/
def enDash : Char := Char.ofNat 0x2013

/-- Em dash U+2014. -/
def emDash : Char := Char.ofNat 0x2014

/-- Plain double quote, code point 34. -/
def dquoteC : Char := Char.ofNat 34

/-- Plain apostrophe, code point 39. -/
def squoteC : Char := Char.ofNat 39

/-- Plain hyphen, code point 45. -/
def hyphenC : Char := Char.ofNat 45

/-- The characters removed from both ends by JavaScript
`String.prototype.trim`: ASCII whitespace, NBSP, the Unicode
space separators, the line separators and the BOM. -/
def isJsWhitespace (c : Char) : Bool :=
  let n := c.toNat
  n == 9 || n == 10 || n == 11 || n == 12 || n == 13 || n == 32 ||
  n == 0xA0 || n == 0x1680 || (0x2000 ≤ n && n ≤ 0x200A) ||
  n == 0x2028 || n == 0x2029 || n == 0x202F || n == 0x205F ||
  n == 0x3000 || n == 0xFEFF

/-- `.replace(/[‘’]/g, "'")` as a per-character expansion. -/
def replaceSmartSingles (c : Char) : List Char :=
  if c == smartSingleL || c == smartSingleR then [squoteC] else [c]

/-- `.replace(/[“”]/g, '"')` as a per-character expansion. -/
def replaceSmartDoubles (c : Char) : List Char :=
  if c == smartDoubleL || c == smartDoubleR then [dquoteC] else [c]

/-- `.replace(/–|—/g, "--")` as a per-character expansion: an en
or em dash becomes two hyphens. -/
def replaceDashes (c : Char) : List Char :=
  if c == enDash || c == emDash then [hyphenC, hyphenC] else [c]

/-- JavaScript `String.prototype.trim`. -/
def jsTrim (s : List Char) : List Char :=
  ((s.dropWhile isJsWhitespace).reverse.dropWhile isJsWhitespace).reverse

/-- `normalizeText` from bot.js: the three global replaces followed by
`trim`. -/
def normalizeText (s : List Char) : List Char :=
  jsTrim (((s.flatMap replaceSmartSingles).flatMap replaceSmartDoubles).flatMap
    replaceDashes)

/-- The character class of the extraction regex in bot.js.  The class in
the source file is `["'""]`, whose members are the plain double quote
(appearing three times) and the plain apostrophe — it contains no smart
quote characters. -/
def isQuoteChar (c : Char) : Bool := c == dquoteC || c == squoteC

/-- Left-to-right scan of `text.matchAll(/["'""]([^"'""]+)["'""]/g)`.
`inQuote` records whether an opening delimiter has been seen and `acc`
holds the reversed characters of the current candidate content.  A quote
met with a non-empty candidate closes a match (the regex content `[^…]+`
is non-empty and greedy, stopping at the nearest quote); a quote met with
an empty candidate restarts the attempt at that quote, exactly as the
regex engine advances past a start position where `[^…]+` cannot match;
a dangling opening quote at the end of input yields nothing. -/
def scanQuotedGo (inQuote : Bool) (acc : List Char) : List Char → List (List Char)
  | [] => []
  | c :: rest =>
    if isQuoteChar c then
      if inQuote then
        if acc.isEmpty then scanQuotedGo true [] rest
        else acc.reverse :: scanQuotedGo false [] rest
      else scanQuotedGo true [] rest
    else
      if inQuote then scanQuotedGo true (c :: acc) rest
      else scanQuotedGo false acc rest

/-- `extractQuotedStrings` from bot.js: collect the regex matches and map
`normalizeText` over the captured group of each. -/
def extractQuotedStrings (s : List Char) : List (List Char) :=
  (scanQuotedGo false [] s).map normalizeText

/-- JavaScript `String.prototype.toLowerCase`, modelled as the simple
per-character case map (the two agree on all the ASCII command and
trigger text this program manipulates). -/
def jsToLower (s : List Char) : List Char := s.map Char.toLower

/-- JavaScript `hay.includes(needle)`: `needle` occurs contiguously in
`hay`. -/
def strIncludes (hay needle : List Char) : Bool :=
  match hay with
  | [] => needle.isEmpty
  | c :: t => List.isPrefixOf needle (c :: t) || strIncludes t needle

/-- The `type` field stored with each response document. -/
inductive ResponseType
  | text
  | image
  | file
  deriving DecidableEq, Repr

/-- A document of the `responses` collection.  `updatedAt` is absent until
the first edit. -/
structure TriggerRecord where
  trigger : List Char
  response : List Char
  type : ResponseType
  createdAt : Nat
  updatedAt : Option Nat
  deriving DecidableEq, Repr

/-- A Discord attachment as used by bot.js: its URL and its optional
`contentType`. -/
structure Attachment where
  url : List Char
  contentType : Option (List Char)
  deriving DecidableEq, Repr

/-- The parts of a Discord message the handlers read: the raw content and
the attachment collection (`first()` is the head of the list). -/
structure Message where
  content : List Char
  attachments : List Attachment
  deriving DecidableEq, Repr

/-- The closed error taxonomy of the three `throw new Error(...)` sites. -/
inductive BotError
  | duplicateTrigger
  | triggerNotFound
  | invalidFormat
  deriving DecidableEq, Repr

/-- The free-text `err.message` carried by each thrown error. -/
def errText : BotError → List Char
  | BotError.duplicateTrigger => strL "Trigger already exists"
  | BotError.triggerNotFound => strL "Trigger not found"
  | BotError.invalidFormat => strL "Invalid format"

/-- Rendering of a `ResponseType` by JavaScript string interpolation. -/
def typeName : ResponseType → List Char
  | ResponseType.text => strL "text"
  | ResponseType.image => strL "image"
  | ResponseType.file => strL "file"

/-- `responses.findOne({ trigger: t })`: first document whose `trigger`
equals `t`. -/
def findOneByTrigger (store : List TriggerRecord) (t : List Char) :
    Option TriggerRecord :=
  store.find? (fun r => r.trigger == t)

/-- `responses.deleteOne({ trigger: t })`: remove the first document whose
`trigger` equals `t`; also return the deleted count. -/
def deleteOneByTrigger : List TriggerRecord → List Char →
    List TriggerRecord × Nat
  | [], _ => ([], 0)
  | r :: rest, t =>
    if r.trigger == t then (rest, 1)
    else
      let p := deleteOneByTrigger rest t
      (r :: p.1, p.2)

/-- `responses.updateOne({ trigger: t }, { $set: { response, type,
updatedAt } })`: rewrite those three fields of the first document whose
`trigger` equals `t`. -/
def updateOneByTrigger (store : List TriggerRecord) (t : List Char)
    (resp : List Char) (ty : ResponseType) (now : Nat) : List TriggerRecord :=
  match store with
  | [] => []
  | r :: rest =>
    if r.trigger == t then
      { r with response := resp, type := ty, updatedAt := some now } :: rest
    else r :: updateOneByTrigger rest t resp ty now

/-- `attachment.contentType?.startsWith("image/") ? "image" : "file"`:
an absent content type makes the optional chain undefined, hence `file`. -/
def classifyAttachment (a : Attachment) : ResponseType :=
  match a.contentType with
  | some ct => if List.isPrefixOf (strL "image/") ct then ResponseType.image
               else ResponseType.file
  | none => ResponseType.file

/-- The attachment-or-two-quoted-strings rule shared verbatim by
`addResponse` and `editResponse`: with an attachment, its URL and sniffed
type; otherwise the text extraction, demanding exactly two quoted strings
and taking the second as the response, of type `text`. -/
def determineResponse (message : Message) :
    Except BotError (List Char × ResponseType) :=
  match message.attachments.head? with
  | some a => Except.ok (a.url, classifyAttachment a)
  | none =>
    let quoted := extractQuotedStrings message.content
    if quoted.length != 2 then Except.error BotError.invalidFormat
    else Except.ok (quoted.getD 1 [], ResponseType.text)

/-- Confirmation string of a successful add. -/
def addedMessage (trigger : List Char) (ty : ResponseType) : List Char :=
  strL "Added: \"" ++ trigger ++ strL "\" → " ++ typeName ty

/-- Confirmation string of a successful remove. -/
def removedMessage (trigger : List Char) : List Char :=
  strL "Removed: \"" ++ trigger ++ strL "\""

/-- Confirmation string of a successful edit. -/
def updatedMessage (trigger : List Char) (ty : ResponseType) : List Char :=
  strL "Updated: \"" ++ trigger ++ strL "\" → " ++ typeName ty

/-- `addResponse` from bot.js.  The pair is the collection after the call
together with the returned confirmation or the thrown error; a thrown
error leaves the collection exactly as it was, since the only write is
the final `insertOne`. -/
def addResponse (store : List TriggerRecord) (message : Message)
    (trigger : List Char) (now : Nat) :
    List TriggerRecord × Except BotError (List Char) :=
  match findOneByTrigger store (jsToLower trigger) with
  | some _ => (store, Except.error BotError.duplicateTrigger)
  | none =>
    match determineResponse message with
    | Except.error e => (store, Except.error e)
    | Except.ok (resp, ty) =>
      (store ++ [{ trigger := jsToLower trigger, response := resp, type := ty,
                   createdAt := now, updatedAt := none }],
       Except.ok (addedMessage trigger ty))

/-- `removeResponse` from bot.js: `deleteOne`, then fail if nothing was
deleted. -/
def removeResponse (store : List TriggerRecord) (trigger : List Char) :
    List TriggerRecord × Except BotError (List Char) :=
  let p := deleteOneByTrigger store (jsToLower trigger)
  if p.2 == 0 then (p.1, Except.error BotError.triggerNotFound)
  else (p.1, Except.ok (removedMessage trigger))

/-- `editResponse` from bot.js: find the record, determine the new
response, `updateOne`. -/
def editResponse (store : List TriggerRecord) (message : Message)
    (trigger : List Char) (now : Nat) :
    List TriggerRecord × Except BotError (List Char) :=
  match findOneByTrigger store (jsToLower trigger) with
  | none => (store, Except.error BotError.triggerNotFound)
  | some _ =>
    match determineResponse message with
    | Except.error e => (store, Except.error e)
    | Except.ok (resp, ty) =>
      (updateOneByTrigger store (jsToLower trigger) resp ty now,
       Except.ok (updatedMessage trigger ty))

/-- `checkMessages` from bot.js: lowercase the incoming content and keep
every stored document whose `trigger` the content includes. -/
def checkMessages (content : List Char) (allResponses : List TriggerRecord) :
    List TriggerRecord :=
  let c := jsToLower content
  allResponses.filter (fun doc => strIncludes c doc.trigger)

/-- The six outcomes of the dispatch in the `messageCreate` handler. -/
inductive CommandKind
  | help
  | list
  | add
  | remove
  | edit
  | plainText
  deriving DecidableEq, Repr

/-- The `content.startsWith(…)` cascade of the `messageCreate` handler,
in source order, falling through to plain-text matching. -/
def classify (content : List Char) : CommandKind :=
  if List.isPrefixOf (strL "--help") content then CommandKind.help
  else if List.isPrefixOf (strL "--list") content then CommandKind.list
  else if List.isPrefixOf (strL "--add") content then CommandKind.add
  else if List.isPrefixOf (strL "--remove") content then CommandKind.remove
  else if List.isPrefixOf (strL "--edit") content then CommandKind.edit
  else CommandKind.plainText

/-- Modelled from the spec sentence behind C4: classification as "a
literal prefix match against the lowercased message", i.e. the same
cascade run on the lowercased content. -/
def classifyClaimed (content : List Char) : CommandKind :=
  classify (jsToLower content)

/-- The observable channel actions of the handler: the two reply shapes,
the `console.error` of a per-match delivery failure, and the outer-catch
user-visible error reply. -/
inductive Action
  | sendText (msg : List Char)
  | sendFiles (url : List Char)
  | logFail (trigger : List Char)
  | sendError (msg : List Char)
  deriving DecidableEq, Repr

/-- One iteration of the delivery loop: the `switch` on `match.type`
inside `try`, with the `catch` logging a transport failure signalled by
the `fails` oracle and letting the loop continue. -/
def deliverOne (fails : TriggerRecord → Bool) (m : TriggerRecord) : Action :=
  if fails m then Action.logFail m.trigger
  else
    match m.type with
    | ResponseType.image => Action.sendFiles m.response
    | ResponseType.file => Action.sendFiles m.response
    | ResponseType.text => Action.sendText m.response

/-- The `for (const match of matches)` loop over the matched records. -/
def deliverMatches (fails : TriggerRecord → Bool) :
    List TriggerRecord → List Action
  | [] => []
  | m :: rest => deliverOne fails m :: deliverMatches fails rest

/-- The static usage text sent for `--help`. -/
def helpText : List Char :=
  strL "Commands available:\n**1. --add \"message\" \"response\"**Adds a new message and its response.\n**2. --remove \"message\"**Removes a message and its response.\n**3. --edit \"message\" \"new_response\"**Edits the response of an existing message.\n**4. --list**List all registered responses.\n**5. --help**Displays this help message."

/-- One line of the `--list` reply. -/
def listLine (r : TriggerRecord) : List Char :=
  strL "- \"" ++ r.trigger ++ strL "\" (" ++ typeName r.type ++ strL ")"

/-- The `--list` reply: header plus the joined lines. -/
def listMessage (store : List TriggerRecord) : List Char :=
  strL "Responses:\n" ++ List.intercalate (strL "\n") (store.map listLine)

/-- The whole `messageCreate` handler after the bot-author guard: content
is normalized, the command cascade dispatches, each command branch
extracts the first quoted string as the trigger and rejects a missing or
empty one (`if (!trigger)`), thrown errors reach the outer catch which
sends a single `Error: …` reply, and the plain-text branch runs the
matcher and the per-match delivery loop. -/
def handleMessage (store : List TriggerRecord) (message : Message)
    (now : Nat) (fails : TriggerRecord → Bool) :
    List Action × List TriggerRecord :=
  match classify (normalizeText message.content) with
  | CommandKind.help => ([Action.sendText helpText], store)
  | CommandKind.list => ([Action.sendText (listMessage store)], store)
  | CommandKind.add =>
    match (extractQuotedStrings (normalizeText message.content)).head? with
    | none => ([Action.sendError (strL "Error: Invalid format")], store)
    | some t =>
      if t.isEmpty then
        ([Action.sendError (strL "Error: Invalid format")], store)
      else
        match addResponse store message t now with
        | (st2, Except.ok out) => ([Action.sendText out], st2)
        | (st2, Except.error e) =>
          ([Action.sendError (strL "Error: " ++ errText e)], st2)
  | CommandKind.remove =>
    match (extractQuotedStrings (normalizeText message.content)).head? with
    | none => ([Action.sendError (strL "Error: Invalid format")], store)
    | some t =>
      if t.isEmpty then
        ([Action.sendError (strL "Error: Invalid format")], store)
      else
        match removeResponse store t with
        | (st2, Except.ok out) => ([Action.sendText out], st2)
        | (st2, Except.error e) =>
          ([Action.sendError (strL "Error: " ++ errText e)], st2)
  | CommandKind.edit =>
    match (extractQuotedStrings (normalizeText message.content)).head? with
    | none => ([Action.sendError (strL "Error: Invalid format")], store)
    | some t =>
      if t.isEmpty then
        ([Action.sendError (strL "Error: Invalid format")], store)
      else
        match editResponse store message t now with
        | (st2, Except.ok out) => ([Action.sendText out], st2)
        | (st2, Except.error e) =>
          ([Action.sendError (strL "Error: " ++ errText e)], st2)
  | CommandKind.plainText =>
    (deliverMatches fails (checkMessages (normalizeText message.content) store),
     store)

/-- Concrete record used by witnesses. -/
def helloRec : TriggerRecord :=
  { trigger := strL "hello", response := strL "hi there",
    type := ResponseType.text, createdAt := 0, updatedAt := none }

/-- Concrete record used by witnesses. -/
def recA : TriggerRecord :=
  { trigger := strL "a", response := strL "ra",
    type := ResponseType.text, createdAt := 0, updatedAt := none }

/-- Concrete record used by witnesses. -/
def recB : TriggerRecord :=
  { trigger := strL "b", response := strL "rb",
    type := ResponseType.text, createdAt := 0, updatedAt := none }

/-- Concrete well-formed add command message used by witnesses. -/
def addMsg1 : Message := { content := strL "--add \"tr\" \"rsp\"", attachments := [] }

/-- Concrete malformed (single-quoted-string) message used by witnesses. -/
def badMsg1 : Message := { content := strL "--add \"a\"", attachments := [] }

/-- Concrete well-formed edit command message used by witnesses. -/
def editMsg1 : Message :=
  { content := strL "--edit \"hello\" \"new answer\"", attachments := [] }

/-- Concrete plain-text message used by witnesses. -/
def plainMsg1 : Message := { content := strL "a b", attachments := [] }

/-- Concrete delivery-failure oracle used by witnesses: sending the
response of the record with trigger "a" fails. -/
def failsA : TriggerRecord → Bool := fun r => r.trigger == strL "a"

/-! Shared lemmas about the embedded primitives. -/

/-- `strIncludes` decides contiguous-substring occurrence. -/
theorem strIncludes_iff (needle hay : List Char) :
    strIncludes hay needle = true ↔ needle <:+: hay := by
  induction hay with
  | nil => simp [strIncludes, List.isEmpty_iff]
  | cons c t ih =>
    simp [strIncludes, ih, List.infix_cons_iff, List.isPrefixOf_iff_prefix]

/-- `findOne` succeeds exactly on the stored triggers. -/
theorem findOneByTrigger_isSome (store : List TriggerRecord) (t : List Char) :
    (findOneByTrigger store t).isSome = true ↔ ∃ r ∈ store, r.trigger = t := by
  unfold findOneByTrigger
  rw [List.find?_isSome]
  simp

/-- `findOne` fails exactly when the trigger is absent. -/
theorem findOneByTrigger_eq_none (store : List TriggerRecord) (t : List Char) :
    findOneByTrigger store t = none ↔ ∀ r ∈ store, r.trigger ≠ t := by
  unfold findOneByTrigger
  rw [List.find?_eq_none]
  simp

/-- The three per-character replacements of `normalizeText` fix every
ASCII character. -/
theorem replace_ascii_char (c : Char) (h : c.toNat < 128) :
    replaceSmartSingles c = [c] ∧ replaceSmartDoubles c = [c] ∧
    replaceDashes c = [c] := by
  have hne : ∀ d : Char, 128 ≤ d.toNat → (c == d) = false := by
    intro d hd
    rw [beq_eq_false_iff_ne]
    intro he
    rw [he] at h
    omega
  refine ⟨?_, ?_, ?_⟩ <;>
    simp [replaceSmartSingles, replaceSmartDoubles, replaceDashes,
      hne smartSingleL (by decide), hne smartSingleR (by decide),
      hne smartDoubleL (by decide), hne smartDoubleR (by decide),
      hne enDash (by decide), hne emDash (by decide)]

/-- The replacement cascade of `normalizeText` fixes ASCII-only text. -/
theorem flatMap_replaces_ascii (s : List Char) (h : ∀ c ∈ s, c.toNat < 128) :
    ((s.flatMap replaceSmartSingles).flatMap replaceSmartDoubles).flatMap
      replaceDashes = s := by
  induction s with
  | nil => rfl
  | cons c t ih =>
    have hc := replace_ascii_char c (h c (List.mem_cons_self c t))
    have ht := ih (fun x hx => h x (List.mem_cons_of_mem _ hx))
    simp only [List.flatMap_cons, List.flatMap_append, hc.1, hc.2.1, hc.2.2]
    simp only [List.flatMap_cons, List.flatMap_nil, List.nil_append,
      List.append_nil, hc.2.1, hc.2.2]
    rw [ht]
    rfl

/-- `dropWhile` fixes a list whose head fails the predicate. -/
theorem dropWhile_eq_self_of_head (p : Char → Bool) (s : List Char)
    (h : s.head?.all (fun c => !p c) = true) : s.dropWhile p = s := by
  cases s with
  | nil => rfl
  | cons a t =>
    have ha : p a = false := by
      have : (!p a) = true := h
      simpa using this
    simp [List.dropWhile_cons, ha]

/-- `jsTrim` fixes a string with no whitespace at either end. -/
theorem jsTrim_eq_self (s : List Char)
    (hhead : s.head?.all (fun c => !isJsWhitespace c) = true)
    (hlast : s.getLast?.all (fun c => !isJsWhitespace c) = true) :
    jsTrim s = s := by
  unfold jsTrim
  rw [dropWhile_eq_self_of_head _ _ hhead]
  rw [dropWhile_eq_self_of_head _ _ (by rw [List.head?_reverse]; exact hlast)]
  exact s.reverse_reverse

/-- C1: for every incoming message text and every store satisfying the
persistence invariant that triggers are stored lowercase, `checkMessages`
returns exactly the records whose lowercase trigger is a contiguous
substring of the lowercased message — the full filter of the store in
store order, hence every matching record and not just the first — and
the empty sequence when no stored trigger is a substring. -/
theorem checkMessages_returns_all_matches (content : List Char)
    (store : List TriggerRecord)
    (hlc : ∀ r ∈ store, jsToLower r.trigger = r.trigger) :
    checkMessages content store =
      store.filter
        (fun r => decide (jsToLower r.trigger <:+: jsToLower content)) ∧
    ((∀ r ∈ store, ¬ jsToLower r.trigger <:+: jsToLower content) →
      checkMessages content store = []) := by
  have hfil : checkMessages content store =
      store.filter
        (fun r => decide (jsToLower r.trigger <:+: jsToLower content)) := by
    unfold checkMessages
    apply List.filter_congr
    intro r hr
    rw [hlc r hr]
    rcases h : strIncludes (jsToLower content) r.trigger with _ | _
    · have : ¬ r.trigger <:+: jsToLower content := by
        rw [← strIncludes_iff]
        simp [h]
      simp [this]
    · have : r.trigger <:+: jsToLower content := (strIncludes_iff _ _).mp h
      simp [this]
  refine ⟨hfil, fun hnone => ?_⟩
  rw [hfil]
  rw [List.filter_eq_nil_iff]
  intro r hr
  simp [hnone r hr]

/-- Witness for C1 at a concrete store and two concrete messages. -/
theorem checkMessages_returns_all_matches_witness :
    checkMessages (strL "well Hello friend") [helloRec] =
      [helloRec].filter
        (fun r => decide
          (jsToLower r.trigger <:+: jsToLower (strL "well Hello friend"))) ∧
    checkMessages (strL "greetings") [helloRec] = [] :=
  ⟨(checkMessages_returns_all_matches (strL "well Hello friend") [helloRec]
      (by decide)).1,
   (checkMessages_returns_all_matches (strL "greetings") [helloRec]
      (by decide)).2 (by decide)⟩

/-- C2 counterexample: the string " a " consists only of ASCII characters
yet `normalizeText` trims it, so the normalizer is not the identity on
ASCII-only text. -/
theorem normalizeText_not_ascii_identity :
    (∀ c ∈ strL " a ", c.toNat < 128) ∧
    normalizeText (strL " a ") ≠ strL " a " := by
  decide

/-- C2 amended: `normalizeText` is the identity on every ASCII-only input
whose first and last characters are not JavaScript whitespace (the three
replacements fix all ASCII characters; only the final trim can change
ASCII-only text, and it only touches the ends). -/
theorem normalizeText_ascii_identity (s : List Char)
    (hascii : ∀ c ∈ s, c.toNat < 128)
    (hhead : s.head?.all (fun c => !isJsWhitespace c) = true)
    (hlast : s.getLast?.all (fun c => !isJsWhitespace c) = true) :
    normalizeText s = s := by
  unfold normalizeText
  rw [flatMap_replaces_ascii s hascii]
  exact jsTrim_eq_self s hhead hlast

/-- Witness for the amended C2 at a concrete ASCII string. -/
theorem normalizeText_ascii_identity_witness :
    normalizeText (strL "abc") = strL "abc" :=
  normalizeText_ascii_identity (strL "abc") (by decide) (by decide) (by decide)

/-- C3: evaluation at the failing input.  A smart-double-quoted string
yields no extraction because the regex class in the source contains only
the plain double quote and the plain apostrophe, although the function's
own comment promises "handling both smart and regular quotes" and the
spec promises smart delimiters; the same content in plain quotes is
extracted. -/
theorem extractQuotedStrings_drops_smart_quotes :
    extractQuotedStrings [smartDoubleL, Char.ofNat 97, smartDoubleR] = [] ∧
    extractQuotedStrings [smartSingleL, Char.ofNat 97, smartSingleR] = [] ∧
    extractQuotedStrings (strL "\"a\"") = [strL "a"] ∧
    isQuoteChar smartDoubleL = false ∧ isQuoteChar smartSingleL = false := by
  decide

/-- C4 counterexample: the handler never lowercases before its prefix
checks, so the normalized message "--HELP" is dispatched as plain text,
while the claimed prefix match against the lowercased message would
classify it as help. -/
theorem classify_not_on_lowercased :
    classify (strL "--HELP") = CommandKind.plainText ∧
    classifyClaimed (strL "--HELP") = CommandKind.help ∧
    classify (strL "--HELP") ≠ classifyClaimed (strL "--HELP") := by
  decide

/-- C4 amended: classification is a literal case-sensitive prefix match
against the normalized message text as written (not lowercased), for the
prefixes checked in the fixed order help, list, add, remove, edit, any
other message being plain text; in particular a message beginning with
the literal prefix "--add" is never classified as plain text. -/
theorem classify_prefix_cascade (content : List Char) :
    (classify content = CommandKind.plainText ↔
      ¬ strL "--help" <+: content ∧ ¬ strL "--list" <+: content ∧
      ¬ strL "--add" <+: content ∧ ¬ strL "--remove" <+: content ∧
      ¬ strL "--edit" <+: content) ∧
    (strL "--add" <+: content → classify content = CommandKind.add) := by
  have key : ∀ l : List Char,
      (List.isPrefixOf l content = true) ↔ l <+: content := by
    intro l
    exact List.isPrefixOf_iff_prefix
  constructor
  · unfold classify
    by_cases h1 : List.isPrefixOf (strL "--help") content = true <;>
    by_cases h2 : List.isPrefixOf (strL "--list") content = true <;>
    by_cases h3 : List.isPrefixOf (strL "--add") content = true <;>
    by_cases h4 : List.isPrefixOf (strL "--remove") content = true <;>
    by_cases h5 : List.isPrefixOf (strL "--edit") content = true <;>
      simp [h1, h2, h3, h4, h5, ← key]
  · intro hadd
    have h1 : List.isPrefixOf (strL "--help") content = false := by
      rw [← Bool.not_eq_true]
      intro hc
      exact absurd (List.prefix_of_prefix_length_le hadd ((key _).mp hc)
        (by decide)) (by decide)
    have h2 : List.isPrefixOf (strL "--list") content = false := by
      rw [← Bool.not_eq_true]
      intro hc
      exact absurd (List.prefix_of_prefix_length_le hadd ((key _).mp hc)
        (by decide)) (by decide)
    have h3 : List.isPrefixOf (strL "--add") content = true := (key _).mpr hadd
    simp [classify, h1, h2, h3]

/-- Witness for the amended C4 at a concrete add command. -/
theorem classify_prefix_cascade_witness :
    classify (strL "--add \"x\" \"y\"") = CommandKind.add :=
  (classify_prefix_cascade (strL "--add \"x\" \"y\"")).2 (by decide)

/-- `determineResponse` never raises the duplicate error. -/
theorem determineResponse_ne_duplicate (message : Message) :
    determineResponse message ≠ Except.error BotError.duplicateTrigger := by
  unfold determineResponse
  cases message.attachments.head? with
  | some a => simp
  | none =>
    simp only []
    split <;> simp

/-- C5: for every store satisfying the lowercase-trigger invariant,
`addResponse` fails with `DuplicateTrigger` exactly when a record with
the same lowercase trigger is already stored, such a failure leaves the
store unchanged, and after a successful add a second add of any trigger
with the same lowercasing fails with `DuplicateTrigger`. -/
theorem addResponse_duplicate_spec (store : List TriggerRecord)
    (message : Message) (trigger : List Char) (now : Nat)
    (hlc : ∀ r ∈ store, jsToLower r.trigger = r.trigger) :
    ((addResponse store message trigger now).2 =
        Except.error BotError.duplicateTrigger ↔
      ∃ r ∈ store, jsToLower r.trigger = jsToLower trigger) ∧
    ((addResponse store message trigger now).2 =
        Except.error BotError.duplicateTrigger →
      (addResponse store message trigger now).1 = store) ∧
    (∀ st2 out message2 trigger2 now2,
      addResponse store message trigger now = (st2, Except.ok out) →
      jsToLower trigger2 = jsToLower trigger →
      (addResponse st2 message2 trigger2 now2).2 =
        Except.error BotError.duplicateTrigger) := by
  cases hf : findOneByTrigger store (jsToLower trigger) with
  | some r0 =>
    have hex : ∃ x ∈ store, x.trigger = jsToLower trigger := by
      rw [← findOneByTrigger_isSome]
      rw [hf]
      rfl
    refine ⟨?_, ?_, ?_⟩
    · constructor
      · intro _
        obtain ⟨x, hx, he⟩ := hex
        exact ⟨x, hx, by rw [hlc x hx, he]⟩
      · intro _
        simp [addResponse, hf]
    · intro _
      simp [addResponse, hf]
    · intro st2 out m2 t2 n2 heq _
      simp [addResponse, hf] at heq
  | none =>
    have hnone : ∀ x ∈ store, x.trigger ≠ jsToLower trigger :=
      (findOneByTrigger_eq_none store (jsToLower trigger)).mp hf
    refine ⟨?_, ?_, ?_⟩
    · constructor
      · intro h
        exfalso
        cases hd : determineResponse message with
        | error e =>
          simp [addResponse, hf, hd] at h
          rw [h] at hd
          exact determineResponse_ne_duplicate message hd
        | ok pr =>
          obtain ⟨resp, ty⟩ := pr
          simp [addResponse, hf, hd] at h
      · rintro ⟨x, hx, he⟩
        rw [hlc x hx] at he
        exact absurd he (hnone x hx)
    · intro h
      cases hd : determineResponse message with
      | error e => simp [addResponse, hf, hd]
      | ok pr =>
        obtain ⟨resp, ty⟩ := pr
        simp [addResponse, hf, hd] at h
    · intro st2 out m2 t2 n2 heq he2
      cases hd : determineResponse message with
      | error e => simp [addResponse, hf, hd] at heq
      | ok pr =>
        obtain ⟨resp, ty⟩ := pr
        simp only [addResponse, hf, hd] at heq
        have hst2 : st2 = store ++
            [{ trigger := jsToLower trigger, response := resp, type := ty,
               createdAt := now, updatedAt := none }] := by
          have := congrArg Prod.fst heq
          simpa using this.symm
        have hmem : ∃ x ∈ st2, x.trigger = jsToLower t2 := by
          rw [hst2, he2]
          exact ⟨_, List.mem_append_right _ (List.mem_singleton.mpr rfl), rfl⟩
        have hsome : (findOneByTrigger st2 (jsToLower t2)).isSome = true :=
          (findOneByTrigger_isSome st2 (jsToLower t2)).mpr hmem
        cases hf2 : findOneByTrigger st2 (jsToLower t2) with
        | none =>
          rw [hf2] at hsome
          cases hsome
        | some _ =>
          simp [addResponse, hf2]

/-- Witness for C5: adding "tr" to the empty store succeeds, adding it
again fails with the duplicate error. -/
theorem addResponse_duplicate_spec_witness :
    (addResponse (addResponse [] addMsg1 (strL "tr") 0).1 addMsg1
        (strL "tr") 1).2 = Except.error BotError.duplicateTrigger :=
  (addResponse_duplicate_spec [] addMsg1 (strL "tr") 0 (by decide)).2.2
    (addResponse [] addMsg1 (strL "tr") 0).1
    (addedMessage (strL "tr") ResponseType.text)
    addMsg1 (strL "tr") 1 (by rfl) (by rfl)

/-- A successful `determineResponse` on an attachment-free message comes
from the quoted-text rule: exactly two quoted strings, the response being
the second, of type `text`. -/
theorem determineResponse_no_attachment (message : Message)
    (hatt : message.attachments = []) (resp : List Char) (ty : ResponseType)
    (hd : determineResponse message = Except.ok (resp, ty)) :
    resp = (extractQuotedStrings message.content).getD 1 [] ∧
    ty = ResponseType.text ∧
    (extractQuotedStrings message.content).length = 2 := by
  unfold determineResponse at hd
  rw [hatt] at hd
  simp only [List.head?_nil] at hd
  split at hd
  · cases hd
  · next hc =>
    obtain ⟨h1, h2⟩ := Prod.mk.injEq .. ▸ Except.ok.inj hd
    refine ⟨h1.symm, h2.symm, ?_⟩
    simpa using hc

/-- An attachment-free `determineResponse` without exactly two quoted
strings is the format error. -/
theorem determineResponse_bad_format (message : Message)
    (hatt : message.attachments = [])
    (hlen : (extractQuotedStrings message.content).length ≠ 2) :
    determineResponse message = Except.error BotError.invalidFormat := by
  unfold determineResponse
  rw [hatt]
  simp only [List.head?_nil]
  split
  · rfl
  · next hc =>
    exact absurd (by simpa using hc) hlen

/-- Every record of an `updateOne` result is either an untouched record
of the store or carries the written response, type and updatedAt. -/
theorem mem_updateOneByTrigger (store : List TriggerRecord) (t resp : List Char)
    (ty : ResponseType) (now : Nat) :
    ∀ r ∈ updateOneByTrigger store t resp ty now,
      r ∈ store ∨ (r.response = resp ∧ r.type = ty ∧ r.updatedAt = some now) := by
  induction store with
  | nil =>
    intro r hr
    cases hr
  | cons a rest ih =>
    intro r hr
    unfold updateOneByTrigger at hr
    split at hr
    · rcases List.mem_cons.mp hr with he | hm
      · right
        rw [he]
        exact ⟨rfl, rfl, rfl⟩
      · left
        exact List.mem_cons_of_mem _ hm
    · rcases List.mem_cons.mp hr with he | hm
      · left
        rw [he]
        exact List.mem_cons_self a rest
      · rcases ih r hm with h | h
        · left
          exact List.mem_cons_of_mem _ h
        · right
          exact h

/-- C6: for an add or edit command whose source message carries no
attachment, provided the command's store precondition holds (no duplicate
for add, existing trigger for edit — those checks run first), the
operation fails with `InvalidFormat` unless the source text contains
exactly two quoted strings; and on success the persisted response is the
second quoted string with type `text`. -/
theorem add_edit_two_quoted_spec (store : List TriggerRecord)
    (message : Message) (trigger : List Char) (now : Nat)
    (hatt : message.attachments = []) :
    ((extractQuotedStrings message.content).length ≠ 2 →
      ((∀ r ∈ store, r.trigger ≠ jsToLower trigger) →
        (addResponse store message trigger now).2 =
          Except.error BotError.invalidFormat) ∧
      ((∃ r ∈ store, r.trigger = jsToLower trigger) →
        (editResponse store message trigger now).2 =
          Except.error BotError.invalidFormat)) ∧
    (∀ st2 out, addResponse store message trigger now = (st2, Except.ok out) →
      ∃ rec, st2 = store ++ [rec] ∧
        rec.response = (extractQuotedStrings message.content).getD 1 [] ∧
        rec.type = ResponseType.text) ∧
    (∀ st2 out, editResponse store message trigger now = (st2, Except.ok out) →
      ∀ r ∈ st2, r ∈ store ∨
        (r.response = (extractQuotedStrings message.content).getD 1 [] ∧
         r.type = ResponseType.text ∧ r.updatedAt = some now)) := by
  refine ⟨?_, ?_, ?_⟩
  · intro hlen
    have hderr := determineResponse_bad_format message hatt hlen
    constructor
    · intro hno
      have hf : findOneByTrigger store (jsToLower trigger) = none :=
        (findOneByTrigger_eq_none store (jsToLower trigger)).mpr hno
      simp [addResponse, hf, hderr]
    · intro hex
      have hsome : (findOneByTrigger store (jsToLower trigger)).isSome = true :=
        (findOneByTrigger_isSome store (jsToLower trigger)).mpr hex
      cases hf : findOneByTrigger store (jsToLower trigger) with
      | none =>
        rw [hf] at hsome
        cases hsome
      | some _ =>
        simp [editResponse, hf, hderr]
  · intro st2 out heq
    cases hf : findOneByTrigger store (jsToLower trigger) with
    | some _ => simp [addResponse, hf] at heq
    | none =>
      cases hd : determineResponse message with
      | error e => simp [addResponse, hf, hd] at heq
      | ok pr =>
        obtain ⟨resp, ty⟩ := pr
        obtain ⟨h1, h2, _⟩ := determineResponse_no_attachment message hatt
          resp ty hd
        simp only [addResponse, hf, hd] at heq
        have hst2 : st2 = store ++
            [{ trigger := jsToLower trigger, response := resp, type := ty,
               createdAt := now, updatedAt := none }] := by
          have := congrArg Prod.fst heq
          simpa using this.symm
        exact ⟨_, hst2, h1, h2⟩
  · intro st2 out heq r hr
    cases hf : findOneByTrigger store (jsToLower trigger) with
    | none => simp [editResponse, hf] at heq
    | some _ =>
      cases hd : determineResponse message with
      | error e => simp [editResponse, hf, hd] at heq
      | ok pr =>
        obtain ⟨resp, ty⟩ := pr
        obtain ⟨h1, h2, _⟩ := determineResponse_no_attachment message hatt
          resp ty hd
        simp only [editResponse, hf, hd] at heq
        have hst2 : st2 = updateOneByTrigger store (jsToLower trigger)
            resp ty now := by
          have := congrArg Prod.fst heq
          simpa using this.symm
        rw [hst2] at hr
        rcases mem_updateOneByTrigger store (jsToLower trigger) resp ty now
          r hr with h | h
        · exact Or.inl h
        · exact Or.inr ⟨by rw [h.1, h1], by rw [h.2.1, h2], h.2.2⟩

/-- Witness for C6: an attachment-free add with a single quoted string
fails with the format error. -/
theorem add_edit_two_quoted_spec_witness :
    (addResponse [] badMsg1 (strL "a") 0).2 =
      Except.error BotError.invalidFormat :=
  (((add_edit_two_quoted_spec [] badMsg1 (strL "a") 0 rfl).1
    (by decide)).1) (by decide)

/-- Deleting a trigger that is not stored deletes nothing and reports a
zero count. -/
theorem deleteOneByTrigger_not_found (store : List TriggerRecord)
    (t : List Char) (h : ∀ r ∈ store, r.trigger ≠ t) :
    deleteOneByTrigger store t = (store, 0) := by
  induction store with
  | nil => rfl
  | cons a rest ih =>
    have ha : (a.trigger == t) = false := by
      rw [beq_eq_false_iff_ne]
      exact h a (List.mem_cons_self a rest)
    simp [deleteOneByTrigger, ha,
      ih (fun r hr => h r (List.mem_cons_of_mem _ hr))]

/-- Deleting a stored trigger from a store with pairwise distinct
triggers removes exactly the record carrying it and reports count one. -/
theorem deleteOneByTrigger_found (store : List TriggerRecord) (t : List Char)
    (hnd : (store.map TriggerRecord.trigger).Nodup)
    (hex : ∃ r ∈ store, r.trigger = t) :
    (deleteOneByTrigger store t).2 = 1 ∧
    (deleteOneByTrigger store t).1 =
      store.filter (fun r => !(r.trigger == t)) := by
  induction store with
  | nil => simp at hex
  | cons a rest ih =>
    rw [List.map_cons, List.nodup_cons] at hnd
    by_cases ha : a.trigger = t
    · have hrest : ∀ r ∈ rest, r.trigger ≠ t := by
        intro r hr he
        exact hnd.1 (by rw [ha, ← he]; exact List.mem_map_of_mem _ hr)
      have hfilter : rest.filter (fun r => !(r.trigger == t)) = rest :=
        List.filter_eq_self.mpr
          (fun r hr => by simp [beq_eq_false_iff_ne, hrest r hr])
      have hab : (a.trigger == t) = true := beq_iff_eq.mpr ha
      simp [deleteOneByTrigger, hab, hfilter]
    · have hex2 : ∃ r ∈ rest, r.trigger = t := by
        rcases hex with ⟨r, hr, he⟩
        rcases List.mem_cons.mp hr with rfl | hr2
        · exact absurd he ha
        · exact ⟨r, hr2, he⟩
      have hab : (a.trigger == t) = false := by
        rw [beq_eq_false_iff_ne]
        exact ha
      have hih := ih hnd.2 hex2
      simp [deleteOneByTrigger, hab, hih.1, hih.2]

/-- C7: for every store satisfying the persistence invariants (lowercase,
pairwise distinct triggers), `removeResponse` fails with
`TriggerNotFound` exactly when no record with that lowercase trigger
exists, that failure leaves the store unchanged, and on success the
record with that trigger is deleted while every other record is kept, so
the resulting store — which is what a subsequent list reads — no longer
contains the removed trigger. -/
theorem removeResponse_spec (store : List TriggerRecord) (trigger : List Char)
    (hlc : ∀ r ∈ store, jsToLower r.trigger = r.trigger)
    (hnd : (store.map TriggerRecord.trigger).Nodup) :
    ((removeResponse store trigger).2 =
        Except.error BotError.triggerNotFound ↔
      ¬ ∃ r ∈ store, jsToLower r.trigger = jsToLower trigger) ∧
    ((removeResponse store trigger).2 =
        Except.error BotError.triggerNotFound →
      (removeResponse store trigger).1 = store) ∧
    (∀ out, (removeResponse store trigger).2 = Except.ok out →
      (removeResponse store trigger).1 =
        store.filter (fun r => !(r.trigger == jsToLower trigger)) ∧
      jsToLower trigger ∉
        ((removeResponse store trigger).1).map TriggerRecord.trigger) := by
  by_cases hex : ∃ r ∈ store, r.trigger = jsToLower trigger
  · have hfound := deleteOneByTrigger_found store (jsToLower trigger) hnd hex
    have hne : (deleteOneByTrigger store (jsToLower trigger)).2 ≠ 0 := by
      rw [hfound.1]
      decide
    have hnz : ((deleteOneByTrigger store (jsToLower trigger)).2 == 0)
        = false := by
      rw [beq_eq_false_iff_ne]
      exact hne
    refine ⟨?_, ?_, ?_⟩
    · constructor
      · intro h
        exfalso
        simp [removeResponse, hnz] at h
      · intro hno
        exfalso
        rcases hex with ⟨r, hr, he⟩
        exact hno ⟨r, hr, by rw [hlc r hr, he]⟩
    · intro h
      exfalso
      simp [removeResponse, hnz] at h
    · intro out _
      constructor
      · simp [removeResponse, hnz, hfound.2]
      · simp only [removeResponse, hnz]
        intro hmem
        rw [if_neg (by simp [hne])] at hmem
        rw [hfound.2] at hmem
        rcases List.mem_map.mp hmem with ⟨r, hr, he⟩
        rcases List.mem_filter.mp hr with ⟨_, hok⟩
        rw [he] at hok
        simp at hok
  · have hall : ∀ r ∈ store, r.trigger ≠ jsToLower trigger := by
      intro r hr he
      exact hex ⟨r, hr, he⟩
    have hdel := deleteOneByTrigger_not_found store (jsToLower trigger) hall
    refine ⟨?_, ?_, ?_⟩
    · constructor
      · intro _
        rintro ⟨r, hr, he⟩
        rw [hlc r hr] at he
        exact hall r hr he
      · intro _
        simp [removeResponse, hdel]
    · intro _
      simp [removeResponse, hdel]
    · intro out h
      exfalso
      simp [removeResponse, hdel] at h

/-- Witness for C7: removing "Hello" (lowercased to the stored "hello")
deletes the record; the resulting store no longer carries the trigger. -/
theorem removeResponse_spec_witness :
    (removeResponse [helloRec] (strL "Hello")).1 =
      [helloRec].filter
        (fun r => !(r.trigger == jsToLower (strL "Hello"))) ∧
    jsToLower (strL "Hello") ∉
      ((removeResponse [helloRec] (strL "Hello")).1).map
        TriggerRecord.trigger :=
  (removeResponse_spec [helloRec] (strL "Hello") (by decide) (by decide)).2.2
    (removedMessage (strL "Hello")) (by rfl)

/-- `findOne` on a store split around the first record carrying the
sought trigger returns that record. -/
theorem findOneByTrigger_decomp (pre post : List TriggerRecord)
    (rec : TriggerRecord) (t : List Char)
    (hpre : ∀ r ∈ pre, r.trigger ≠ t) (hrec : rec.trigger = t) :
    findOneByTrigger (pre ++ rec :: post) t = some rec := by
  induction pre with
  | nil =>
    have : (rec.trigger == t) = true := beq_iff_eq.mpr hrec
    simp [findOneByTrigger, List.find?_cons_of_pos, this]
  | cons a rest ih =>
    have ha : (a.trigger == t) = false := by
      rw [beq_eq_false_iff_ne]
      exact hpre a (List.mem_cons_self a rest)
    have hih := ih (fun r hr => hpre r (List.mem_cons_of_mem _ hr))
    unfold findOneByTrigger at hih ⊢
    rw [List.cons_append, List.find?_cons_of_neg _ (by simp [ha])]
    exact hih

/-- `updateOne` on a store split around the first record carrying the
sought trigger rewrites exactly that record's three fields. -/
theorem updateOneByTrigger_decomp (pre post : List TriggerRecord)
    (rec : TriggerRecord) (t resp : List Char) (ty : ResponseType) (now : Nat)
    (hpre : ∀ r ∈ pre, r.trigger ≠ t) (hrec : rec.trigger = t) :
    updateOneByTrigger (pre ++ rec :: post) t resp ty now =
      pre ++
        { rec with
          response := resp, type := ty, updatedAt := some now } :: post := by
  induction pre with
  | nil =>
    have : (rec.trigger == t) = true := beq_iff_eq.mpr hrec
    simp [updateOneByTrigger, this]
  | cons a rest ih =>
    have ha : (a.trigger == t) = false := by
      rw [beq_eq_false_iff_ne]
      exact hpre a (List.mem_cons_self a rest)
    have hih := ih (fun r hr => hpre r (List.mem_cons_of_mem _ hr))
    simp only [List.cons_append, updateOneByTrigger, ha, Bool.false_eq_true,
      if_false, List.append_eq]
    rw [hih]

/-- C8: a successful edit of the store, split around the first record
carrying the commanded lowercase trigger, rewrites exactly that record's
response, type and updatedAt, leaves its trigger and createdAt fields
unchanged, and leaves every other record untouched. -/
theorem editResponse_frame_spec (pre post : List TriggerRecord)
    (rec : TriggerRecord) (message : Message) (trigger : List Char)
    (now : Nat) (resp : List Char) (ty : ResponseType)
    (hpre : ∀ r ∈ pre, r.trigger ≠ jsToLower trigger)
    (hrec : rec.trigger = jsToLower trigger)
    (hd : determineResponse message = Except.ok (resp, ty)) :
    (editResponse (pre ++ rec :: post) message trigger now).1 =
      pre ++
        { rec with
          response := resp, type := ty, updatedAt := some now } :: post ∧
    ({ rec with
       response := resp, type := ty,
       updatedAt := some now } : TriggerRecord).trigger = rec.trigger ∧
    ({ rec with
       response := resp, type := ty,
       updatedAt := some now } : TriggerRecord).createdAt = rec.createdAt ∧
    (editResponse (pre ++ rec :: post) message trigger now).2 =
      Except.ok (updatedMessage trigger ty) := by
  have hf := findOneByTrigger_decomp pre post rec (jsToLower trigger)
    hpre hrec
  have hu := updateOneByTrigger_decomp pre post rec (jsToLower trigger)
    resp ty now hpre hrec
  refine ⟨?_, rfl, rfl, ?_⟩
  · simp [editResponse, hf, hd, hu]
  · simp [editResponse, hf, hd]

/-- Witness for C8 at the one-record store and a concrete edit command. -/
theorem editResponse_frame_spec_witness :
    (editResponse [helloRec] editMsg1 (strL "hello") 5).1 =
      [] ++
        { helloRec with
          response := strL "new answer", type := ResponseType.text,
          updatedAt := some 5 } :: [] ∧
    ({ helloRec with
       response := strL "new answer", type := ResponseType.text,
       updatedAt := some 5 } : TriggerRecord).trigger = helloRec.trigger ∧
    ({ helloRec with
       response := strL "new answer", type := ResponseType.text,
       updatedAt := some 5 } : TriggerRecord).createdAt = helloRec.createdAt ∧
    (editResponse [helloRec] editMsg1 (strL "hello") 5).2 =
      Except.ok (updatedMessage (strL "hello") ResponseType.text) :=
  editResponse_frame_spec [] [] helloRec editMsg1 (strL "hello") 5
    (strL "new answer") ResponseType.text (by simp) (by decide) (by rfl)

/-- The delivery loop visits the matches one by one. -/
theorem deliverMatches_append (fails : TriggerRecord → Bool)
    (l1 l2 : List TriggerRecord) :
    deliverMatches fails (l1 ++ l2) =
      deliverMatches fails l1 ++ deliverMatches fails l2 := by
  induction l1 with
  | nil => rfl
  | cons m rest ih => simp [deliverMatches, ih]

/-- The per-match try/catch never produces a user-visible error reply. -/
theorem deliverOne_ne_sendError (fails : TriggerRecord → Bool)
    (m : TriggerRecord) (s : List Char) :
    deliverOne fails m ≠ Action.sendError s := by
  unfold deliverOne
  by_cases h : fails m = true
  · simp [h]
  · rw [if_neg h]
    cases m.type <;> simp

/-- No user-visible error reply occurs anywhere in the delivery loop. -/
theorem deliverMatches_no_sendError (fails : TriggerRecord → Bool)
    (ms : List TriggerRecord) (s : List Char) :
    Action.sendError s ∉ deliverMatches fails ms := by
  induction ms with
  | nil => simp [deliverMatches]
  | cons m rest ih =>
    intro hmem
    rcases List.mem_cons.mp hmem with he | hm
    · exact deliverOne_ne_sendError fails m s he.symm
    · exact ih hm

/-- The delivery loop attempts every match: one action per match. -/
theorem deliverMatches_length (fails : TriggerRecord → Bool)
    (ms : List TriggerRecord) :
    (deliverMatches fails ms).length = ms.length := by
  induction ms with
  | nil => rfl
  | cons m rest ih => simp [deliverMatches, ih]

/-- C9: in the plain-text branch, when the matcher returns some matches
and the transport fails on one of them, the failure is logged in place of
that delivery — the remaining matches before and after it are processed
exactly as they otherwise would be — and no user-visible error reply is
ever produced by the delivery loop. -/
theorem delivery_failure_isolated (store : List TriggerRecord)
    (message : Message) (now : Nat) (fails : TriggerRecord → Bool)
    (pre post : List TriggerRecord) (m : TriggerRecord)
    (hclass : classify (normalizeText message.content) = CommandKind.plainText)
    (hmatch : checkMessages (normalizeText message.content) store =
      pre ++ m :: post)
    (hfail : fails m = true) :
    (handleMessage store message now fails).1 =
      deliverMatches fails pre ++ Action.logFail m.trigger ::
        deliverMatches fails post ∧
    (∀ s, Action.sendError s ∉ (handleMessage store message now fails).1) ∧
    (deliverMatches fails post).length = post.length := by
  have h1 : (handleMessage store message now fails).1 =
      deliverMatches fails
        (checkMessages (normalizeText message.content) store) := by
    simp only [handleMessage, hclass]
  refine ⟨?_, ?_, deliverMatches_length fails post⟩
  · rw [h1, hmatch, deliverMatches_append]
    simp [deliverMatches, deliverOne, hfail]
  · intro s
    rw [h1]
    exact deliverMatches_no_sendError fails _ s

/-- Witness for C9: two stored triggers both match "a b"; delivery of the
first fails, yet the loop logs it and still delivers the second. -/
theorem delivery_failure_isolated_witness :
    (handleMessage [recA, recB] plainMsg1 0 failsA).1 =
      deliverMatches failsA [] ++ Action.logFail recA.trigger ::
        deliverMatches failsA [recB] :=
  (delivery_failure_isolated [recA, recB] plainMsg1 0 failsA [] [recB] recA
    (by decide) (by decide) (by decide)).1

/-- Every record surviving a `deleteOne` was in the store. -/
theorem mem_deleteOneByTrigger (store : List TriggerRecord) (t : List Char) :
    ∀ r ∈ (deleteOneByTrigger store t).1, r ∈ store := by
  induction store with
  | nil =>
    intro r hr
    exact hr
  | cons a rest ih =>
    intro r hr
    unfold deleteOneByTrigger at hr
    by_cases h : (a.trigger == t) = true
    · rw [if_pos h] at hr
      exact List.mem_cons_of_mem _ hr
    · rw [if_neg h] at hr
      rcases List.mem_cons.mp hr with he | hr2
      · rw [he]
        exact List.mem_cons_self _ _
      · exact List.mem_cons_of_mem _ (ih r hr2)

/-- `updateOne` leaves the trigger column of the store unchanged. -/
theorem updateOneByTrigger_map_trigger (store : List TriggerRecord)
    (t resp : List Char) (ty : ResponseType) (now : Nat) :
    (updateOneByTrigger store t resp ty now).map TriggerRecord.trigger =
      store.map TriggerRecord.trigger := by
  induction store with
  | nil => rfl
  | cons a rest ih =>
    unfold updateOneByTrigger
    split
    · simp
    · simp [ih]

/-- `addResponse` preserves non-emptiness of all stored triggers when the
commanded trigger is non-empty. -/
theorem addResponse_preserves_nonempty (store : List TriggerRecord)
    (message : Message) (t : List Char) (now : Nat)
    (hinv : ∀ r ∈ store, r.trigger ≠ []) (ht : t ≠ []) :
    ∀ r ∈ (addResponse store message t now).1, r.trigger ≠ [] := by
  cases hf : findOneByTrigger store (jsToLower t) with
  | some _ =>
    intro r hr
    simp only [addResponse, hf] at hr
    exact hinv r hr
  | none =>
    cases hd : determineResponse message with
    | error e =>
      intro r hr
      simp only [addResponse, hf, hd] at hr
      exact hinv r hr
    | ok pr =>
      obtain ⟨resp, ty⟩ := pr
      intro r hr
      simp only [addResponse, hf, hd] at hr
      rcases List.mem_append.mp hr with h | h
      · exact hinv r h
      · rw [List.mem_singleton.mp h]
        simp only [jsToLower, ne_eq, List.map_eq_nil_iff]
        exact ht

/-- The collection after `removeResponse` is the collection left by its
`deleteOne`, whether or not the command succeeded. -/
theorem removeResponse_fst (store : List TriggerRecord) (t : List Char) :
    (removeResponse store t).1 =
      (deleteOneByTrigger store (jsToLower t)).1 := by
  simp only [removeResponse]
  split <;> rfl

/-- `editResponse` preserves non-emptiness of all stored triggers. -/
theorem editResponse_preserves_nonempty (store : List TriggerRecord)
    (message : Message) (t : List Char) (now : Nat)
    (hinv : ∀ r ∈ store, r.trigger ≠ []) :
    ∀ r ∈ (editResponse store message t now).1, r.trigger ≠ [] := by
  intro r hr
  cases hf : findOneByTrigger store (jsToLower t) with
  | none =>
    simp only [editResponse, hf] at hr
    exact hinv r hr
  | some r0 =>
    cases hd : determineResponse message with
    | error e =>
      simp only [editResponse, hf, hd] at hr
      exact hinv r hr
    | ok pr =>
      obtain ⟨resp, ty⟩ := pr
      simp only [editResponse, hf, hd] at hr
      have hmap : r.trigger ∈ store.map TriggerRecord.trigger := by
        rw [← updateOneByTrigger_map_trigger store (jsToLower t) resp ty now]
        exact List.mem_map_of_mem _ hr
      rcases List.mem_map.mp hmap with ⟨x, hx, he⟩
      rw [← he]
      exact hinv x hx

/-- C10: the message handler preserves the invariant that every persisted
trigger is non-empty — in particular the add branch rejects an absent or
empty-normalizing first quoted string before any write, and otherwise
inserts the lowercasing of a non-empty string — so no stored trigger is
ever the empty string (which would match every message). -/
theorem stored_triggers_nonempty (store : List TriggerRecord)
    (message : Message) (now : Nat) (fails : TriggerRecord → Bool)
    (hinv : ∀ r ∈ store, r.trigger ≠ []) :
    ∀ r ∈ (handleMessage store message now fails).2, r.trigger ≠ [] := by
  intro r hr
  unfold handleMessage at hr
  split at hr
  · exact hinv r hr
  · exact hinv r hr
  · split at hr
    · exact hinv r hr
    · rename_i t hsome
      split at hr
      · exact hinv r hr
      · rename_i hte
        have ht : t ≠ [] := by
          intro he
          rw [he] at hte
          exact hte rfl
        rcases haddr : addResponse store message t now with ⟨st2, res⟩
        rw [haddr] at hr
        have hfst : (addResponse store message t now).1 = st2 := by rw [haddr]
        cases res with
        | ok out =>
          exact addResponse_preserves_nonempty store message t now hinv ht r
            (by rw [hfst]; exact hr)
        | error e =>
          exact addResponse_preserves_nonempty store message t now hinv ht r
            (by rw [hfst]; exact hr)
  · split at hr
    · exact hinv r hr
    · rename_i t hsome
      split at hr
      · exact hinv r hr
      · rcases hrem : removeResponse store t with ⟨st2, res⟩
        rw [hrem] at hr
        have hfst : (removeResponse store t).1 = st2 := by rw [hrem]
        have hdel : r ∈ (deleteOneByTrigger store (jsToLower t)).1 := by
          rw [← removeResponse_fst, hfst]
          cases res with
          | ok out => exact hr
          | error e => exact hr
        exact hinv r (mem_deleteOneByTrigger store (jsToLower t) r hdel)
  · split at hr
    · exact hinv r hr
    · rename_i t hsome
      split at hr
      · exact hinv r hr
      · rcases hed : editResponse store message t now with ⟨st2, res⟩
        rw [hed] at hr
        have hfst : (editResponse store message t now).1 = st2 := by rw [hed]
        have hmem : r ∈ (editResponse store message t now).1 := by
          rw [hfst]
          cases res with
          | ok out => exact hr
          | error e => exact hr
        exact editResponse_preserves_nonempty store message t now hinv r hmem
  · exact hinv r hr

/-- Witness for C10: the record persisted by a concrete add command has a
non-empty trigger. -/
theorem stored_triggers_nonempty_witness :
    ({ trigger := strL "tr", response := strL "rsp",
       type := ResponseType.text, createdAt := 0,
       updatedAt := none } : TriggerRecord).trigger ≠ [] :=
  stored_triggers_nonempty [] addMsg1 0 (fun _ => false) (by simp)
    { trigger := strL "tr", response := strL "rsp",
      type := ResponseType.text, createdAt := 0, updatedAt := none }
    (by decide)

end ChatCatcher
